import Mathlib

/-!
Verification of the AutoFill-AI retrieval/extraction/fill engine.

Shallow embedding of the backend services:
  * `RAGService.query_document`      (src/backend/app/services/rag_service.py)
  * `ExtractionService.extract_fields` (src/backend/app/services/extraction_service.py)
  * `FileFillerService.fill_document` / `_fill_word`
                                     (src/backend/app/services/file_filler_service.py)

External effects (Qdrant, the LLM agent, DuckDuckGo) are modelled as explicit
environment records supplied to the embedded functions; the Python-level
string operations (`in`, `str.replace`, `str.lower`, `str.endswith`,
`re.search`) are embedded as executable functions on `List Char`.
-/

namespace AutoFill

/-! ## Python string primitives -/

/-- Python `pat in s` (substring containment) on character lists:
true iff `pat` occurs as a contiguous sublist. The empty pattern is
contained in every string, matching Python semantics. -/
def containsSubL (pat : List Char) : List Char → Bool
  | [] => pat.isEmpty
  | c :: rest => pat.isPrefixOf (c :: rest) || containsSubL pat rest

/-- Python `pat in s` on strings. -/
def containsSub (pat s : String) : Bool :=
  containsSubL pat.toList s.toList

/-- Python `s.lower()` (restricted to the ASCII range, which covers every
marker the code compares against). -/
def toLowerStr (s : String) : String :=
  String.mk (s.toList.map Char.toLower)

/-- Python `s.replace(",", "")` as used by the numeric post-processing. -/
def stripCommas (s : String) : String :=
  String.mk (s.toList.filter (fun c => c ≠ ','))

/-- Python `s.endswith(suf)`. -/
def endsWithL (suf s : List Char) : Bool :=
  suf.isSuffixOf s

/-! ## The numeric regex `-?\d*\.?\d+` of `re.search`

`extract_fields` repairs number-typed answers with
`re.search(r'-?\d*\.?\d+', answer.replace(',', ''))`.  The functions below
implement Python's leftmost, greedy matching for exactly this pattern. -/

/-- Greedy match of the sub-pattern `\d*\.?\d+` at the head of `s`:
a maximal digit run, optionally followed by a dot and a further mandatory
maximal digit run; backtracking collapses to "the digit run alone" when the
dot part cannot complete. Returns the matched characters. -/
def matchBody (s : List Char) : Option (List Char) :=
  if (s.dropWhile Char.isDigit).head? = some '.' ∧
      ¬((s.dropWhile Char.isDigit).tail.takeWhile Char.isDigit).isEmpty then
    some (s.takeWhile Char.isDigit
      ++ '.' :: (s.dropWhile Char.isDigit).tail.takeWhile Char.isDigit)
  else if (s.takeWhile Char.isDigit).isEmpty then none
  else some (s.takeWhile Char.isDigit)

/-- Greedy match of the full pattern `-?\d*\.?\d+` at the head of `s`:
take the optional minus sign when the rest still completes, else retry
without it (which only succeeds when `s` itself starts numerically). -/
def matchAt (s : List Char) : Option (List Char) :=
  if s.head? = some '-' then
    match matchBody s.tail with
    | some m => some ('-' :: m)
    | none => matchBody s
  else matchBody s

/-- Python `re.search` for the pattern: try each start position from the
left, returning the first successful greedy match. -/
def searchNum : List Char → Option (List Char)
  | [] => none
  | c :: rest =>
    match matchAt (c :: rest) with
    | some m => some m
    | none => searchNum rest

/-- The numeric post-processing of `extract_fields` (lines 57-63): strip
commas, search for the first numeric substring, and keep the raw answer
unchanged when no match exists. -/
def postProcessNumber (answer : String) : String :=
  match searchNum (stripCommas answer).toList with
  | some m => String.mk m
  | none => answer

/-! ## `RAGService.query_document` (rag_service.py, lines 97-210)

The Qdrant client, the retriever and the tool-calling agent are external
effects; one call of `query_document` observes them through an `AgentEnv`
record: whether the session collection exists and its item count, the
documents the retriever returned, and the agent invocation's outcome
(an exception message, or a response). Everything after these observations
is the function's own logic and is embedded verbatim. -/

/-- A document returned by the retriever; `source` is
`metadata.get("source")` (absent keys yield the default `"unknown"`). -/
structure RetrievedDoc where
  page_content : String
  source : Option String
  deriving DecidableEq

/-- One item of a structured (list-shaped) agent output: a dict carrying a
`"text"` entry, a plain string, or anything else (contributing nothing). -/
inductive RawItem where
  | itemText (s : String)
  | itemStr (s : String)
  | itemOther
  deriving DecidableEq

/-- The agent's `response["output"]`: a plain string, a list of items, or
an unknown value carrying its Python `str()` rendering. -/
inductive RawOutput where
  | rstr (s : String)
  | rlist (items : List RawItem)
  | rother (s : String)
  deriving DecidableEq

/-- A completed agent invocation: its output and the Python `str()`
rendering of the whole response dict (inspected for `"duckduckgo"`). -/
structure AgentResponse where
  output : RawOutput
  responseStr : String
  deriving DecidableEq

/-- The external observations of one `query_document` call. `result` is
`Except.error msg` when the Qdrant connection, the retrieval or the agent
invocation raised, and `Except.ok` the agent's response otherwise. -/
structure AgentEnv where
  hasCollection : Bool
  count : Nat
  docs : List RetrievedDoc
  result : Except String AgentResponse

/-- The answer/sources pair returned by `query_document`. -/
structure RetrievalAnswer where
  answer : String
  source_documents : List String
  deriving DecidableEq

/-- The flattening of `response["output"]` into `final_answer`
(rag_service.py, lines 174-191). -/
def flattenOutput : RawOutput → String
  | .rstr s => s
  | .rlist items =>
    items.foldl
      (fun acc it =>
        match it with
        | .itemText t => acc ++ t
        | .itemStr t => acc ++ t
        | .itemOther => acc) ""
  | .rother s => s

/-- The inline document-presence check of rag_service.py line 119:
the collection exists and holds at least one item. -/
def has_documents (env : AgentEnv) : Bool :=
  env.hasCollection && decide (0 < env.count)

/-- The candidate sources gathered from retrieval (rag_service.py,
lines 113-133), before the search-tool normalization: the retrieved
documents' source metadata when the session has documents, else empty. -/
def docSources (env : AgentEnv) : List String :=
  if has_documents env then env.docs.map (fun d => d.source.getD "unknown")
  else []

/-- The search-tool detection of rag_service.py line 196:
`"duckduckgo" in str(response).lower() or "search" in final_answer.lower()`. -/
def usedSearchTool (resp : AgentResponse) : Bool :=
  containsSub "duckduckgo" (toLowerStr resp.responseStr)
    || containsSub "search" (toLowerStr (flattenOutput resp.output))

/-- Embedded `RAGService.query_document`: on any internal exception, degrade to an
error-describing answer with empty sources (lines 205-210); otherwise
return the flattened agent answer together with the candidate sources,
appending `"Internet Search"` once when search-tool usage is detected
(lines 195-203). -/
def query_document (env : AgentEnv) : RetrievalAnswer :=
  match env.result with
  | .error e =>
    { answer := "I encountered an error while thinking: " ++ e
      source_documents := [] }
  | .ok resp =>
    let sources := docSources env
    let final_answer := flattenOutput resp.output
    let sources2 :=
      if usedSearchTool resp then
        if sources.contains "Internet Search" then sources
        else sources ++ ["Internet Search"]
      else sources
    { answer := final_answer, source_documents := sources2 }

/-! ## `ExtractionService.extract_fields` (extraction_service.py, lines 18-114) -/

/-- A field specification (schemas/extraction.py, `ExtractionField`). -/
structure ExtractionField where
  key : String
  description : String
  data_type : String
  deriving DecidableEq

/-- A Python value as stored in `FieldResult.value` (`Any` in the schema):
`None`, a string, or an integer. -/
inductive PyValue where
  | vNull
  | vStr (s : String)
  | vInt (n : Int)
  deriving DecidableEq

/-- Python `str()` on a `PyValue` (only applied to non-`None` values). -/
def pyStr : PyValue → String
  | .vNull => "None"
  | .vStr s => s
  | .vInt n => toString n

/-- A per-field extraction result (schemas/extraction.py, `FieldResult`). -/
structure FieldResult where
  key : String
  value : PyValue
  source : String
  confidence : String
  deriving DecidableEq

/-- The apostrophe character, used by Python `repr` on strings. -/
def pyQuote : Char := Char.ofNat 39

/-- Python `str(list_of_strings)`, as used in `source=str(sources)`
(extraction_service.py line 80): bracketed, comma-separated,
quote-delimited items. -/
def pyReprList (xs : List String) : String :=
  "[" ++ String.intercalate ", "
      (xs.map (fun s => String.singleton pyQuote ++ s ++ String.singleton pyQuote))
    ++ "]"

/-- The external observations of one loop iteration: the stage-1
environment (`Except.error` when the awaited RAG call itself raised, which
the `except` at line 84 absorbs) and the stage-2 web search/summarization
outcome (`Except.error` when it raised). -/
structure FieldEnv where
  rag : Except String AgentEnv
  web : Except String String

/-- The fallback condition of extraction_service.py line 73:
`"MISSING" in answer or "未提及" in answer or not sources`. -/
def needsWebSearch (answer : String) (sources : List String) : Bool :=
  containsSub "MISSING" answer || containsSub "未提及" answer || sources.isEmpty

/-- The type-directed post-processing of extraction_service.py lines 57-63:
number-typed fields run the numeric repair, all others keep the raw answer. -/
def procAnswer (field : ExtractionField) (answer : String) : String :=
  if field.data_type = "number" then postProcessNumber answer else answer

/-- Stage 2 of one loop iteration (extraction_service.py lines 88-112):
a successful web search yields a `"Medium (Web)"` result, a raised one the
`"None"` placeholder result. -/
def webFallback (field : ExtractionField) (web : Except String String) : FieldResult :=
  match web with
  | .ok web_answer =>
    { key := field.key, value := .vStr web_answer
      source := "Internet Search", confidence := "Medium (Web)" }
  | .error _ =>
    { key := field.key, value := .vStr "N/A"
      source := "None", confidence := "None" }

/-- One iteration of the extraction loop (extraction_service.py,
lines 21-112): query the RAG service, post-process by type, either keep the
document-grounded answer as `"High (Doc)"` or take the web fallback. -/
def extract_one (field : ExtractionField) (fenv : FieldEnv) : FieldResult :=
  match fenv.rag with
  | .error _ => webFallback field fenv.web
  | .ok env =>
    let pack := query_document env
    let sources := pack.source_documents
    let answer := procAnswer field pack.answer
    if needsWebSearch answer sources then webFallback field fenv.web
    else
      { key := field.key, value := .vStr answer
        source := pyReprList sources, confidence := "High (Doc)" }

/-- Embedded `ExtractionService.extract_fields`: the per-field loop, appending
exactly one result per field; the environment function supplies the
external observations of the i-th iteration. -/
def extract_fields : List ExtractionField → (Nat → FieldEnv) → List FieldResult
  | [], _ => []
  | f :: rest, env =>
    extract_one f (env 0) :: extract_fields rest (fun i => env (i + 1))

/-! ## `FileFillerService` (file_filler_service.py) -/

/-- Python `s.replace(pat, val)` on character lists, fuelled for structural
recursion (the fuel is the input length, always sufficient): scan left to
right, replacing each non-overlapping occurrence of a non-empty `pat`. -/
def replaceAllFuel (pat val : List Char) : Nat → List Char → List Char
  | _, [] => []
  | 0, s => s
  | fuel + 1, c :: rest =>
    if pat.isPrefixOf (c :: rest) && !pat.isEmpty then
      val ++ replaceAllFuel pat val fuel (rest.drop (pat.length - 1))
    else c :: replaceAllFuel pat val fuel rest

/-- Python `s.replace(pat, val)` on character lists (non-empty `pat`). -/
def replaceAllL (pat val s : List Char) : List Char :=
  replaceAllFuel pat val s.length s

/-- Python `s.replace(pat, val)` on strings. -/
def replaceAllS (pat val s : String) : String :=
  String.mk (replaceAllL pat.toList val.toList s.toList)

/-- Split `s` at each non-overlapping occurrence of `pat` (same scan as
`replaceAllFuel`); used to state what replacement leaves untouched. -/
def splitOnFuel (pat : List Char) : Nat → List Char → List (List Char)
  | _, [] => [[]]
  | 0, s => [s]
  | fuel + 1, c :: rest =>
    if pat.isPrefixOf (c :: rest) && !pat.isEmpty then
      [] :: splitOnFuel pat fuel (rest.drop (pat.length - 1))
    else
      match splitOnFuel pat fuel rest with
      | [] => [[c]]
      | h :: t => (c :: h) :: t

/-- Split of `s` at each occurrence of `pat`. -/
def splitOnL (pat s : List Char) : List (List Char) :=
  splitOnFuel pat s.length s

/-- Join pieces with the separator `val` between consecutive pieces. -/
def joinWith (val : List Char) : List (List Char) → List Char
  | [] => []
  | [x] => x
  | x :: y :: t => x ++ val ++ joinWith val (y :: t)

/-- The placeholder `\x7b\x7bkey\x7d\x7d` looked up by `_fill_word`
(file_filler_service.py line 78: `f"..."` around the key). -/
def placeholder (key : String) : String :=
  "\x7b\x7b" ++ key ++ "\x7d\x7d"

/-- The per-text-run replacement loop of `_fill_word` (lines 77-80 and
86-89): for each key/value pair in map order, replace all occurrences of
the key's placeholder when present, else leave the text unchanged. -/
def fillText (data : List (String × String)) (t : String) : String :=
  data.foldl
    (fun acc kv =>
      if containsSub (placeholder kv.1) acc then
        replaceAllS (placeholder kv.1) kv.2 acc
      else acc) t

/-- The value map of `fill_document` line 20:
`{item.key: str(item.value) for item in data if item.value is not None}`,
modelled as an insertion-ordered association list (extraction requests
carry unique keys). -/
def buildDataMap (data : List FieldResult) : List (String × String) :=
  data.filterMap
    (fun r =>
      match r.value with
      | .vNull => none
      | v => some (r.key, pyStr v))

/-- A Word document as `_fill_word` observes it: paragraph texts and
table-cell texts (tables as rows of cells). -/
structure WordDoc where
  paragraphs : List String
  tables : List (List (List String))
  deriving DecidableEq

/-- Embedded `FileFillerService._fill_word` (lines 68-91): run the replacement loop
over every paragraph and every table cell. -/
def fill_word (doc : WordDoc) (data : List (String × String)) : WordDoc :=
  { paragraphs := doc.paragraphs.map (fillText data)
    tables := doc.tables.map (fun rows => rows.map (fun cells => cells.map (fillText data))) }

/-- The outcome of `fill_document`'s extension dispatch (lines 31-37). -/
inductive FillOutcome where
  | filledPdf
  | filledWord
  | unsupportedError
  deriving DecidableEq

/-- The dispatch of `FileFillerService.fill_document` (lines 22, 31-37):
lower-case the filename, fill PDFs and Word documents, and raise
`ValueError("Unsupported file format")` for anything else. -/
def fill_document (filename : String) : FillOutcome :=
  let fn := toLowerStr filename
  if endsWithL ".pdf".toList fn.toList then .filledPdf
  else if endsWithL ".docx".toList fn.toList then .filledWord
  else .unsupportedError

/-! ## Spec-side definitions

These definitions follow the wording of the specification (not the code);
they exist to be compared with the embedded functions above. -/

/-- Modelled from the spec wording of DECIDE_FALLBACK: fall back to web
search exactly when "the generated answer signals missing information
(contains a designated not-found marker) or the candidate-source list is
empty"; the designated marker the generator is instructed to emit is
`"MISSING"`. To be compared with the code's `needsWebSearch`. -/
def specFallbackCondition (answer : String) (sources : List String) : Bool :=
  containsSub "MISSING" answer || sources.isEmpty

/-- An unsigned decimal token in the sense of the spec: a non-empty digit
run, or a (possibly empty) digit run followed by a dot and a non-empty
digit run. -/
def unsignedDecTok (m : List Char) : Bool :=
  if (m.dropWhile Char.isDigit).isEmpty then !(m.takeWhile Char.isDigit).isEmpty
  else if (m.dropWhile Char.isDigit).head? = some '.' then
    !(m.dropWhile Char.isDigit).tail.isEmpty
      && (m.dropWhile Char.isDigit).tail.all Char.isDigit
  else false

/-- A signed-decimal numeric token in the sense of the spec: an unsigned
decimal token with an optional leading minus sign. -/
def isSignedDecTok (m : List Char) : Bool :=
  if m.head? = some '-' then unsignedDecTok m.tail else unsignedDecTok m

/-- The spec-side description of replacing every occurrence of a
placeholder while altering no other text: cut the text at each occurrence
and rejoin the untouched pieces with the replacement value. -/
def splitJoin (ph val t : String) : String :=
  String.mk (joinWith val.toList (splitOnL ph.toList t.toList))

/-! ## Concrete fixtures used by counterexamples and witnesses -/

/-- An agent response for an empty session whose answer text mentions web
search, triggering the search-tool detection of rag_service.py line 196. -/
def toolResp : AgentResponse :=
  { output := .rstr "Based on web search, the CEO is Jane Doe"
    responseStr := "agent finished" }

/-- A session with no collection at all whose agent answered from web
search. -/
def toolEnv : AgentEnv :=
  { hasCollection := false, count := 0, docs := [], result := .ok toolResp }

/-- A string-typed field specification. -/
def ceoField : ExtractionField :=
  { key := "ceo_name", description := "Who is the CEO?", data_type := "string" }

/-- A loop-iteration environment wrapping `toolEnv`; the stage-2 web
search would succeed but is never reached. -/
def toolFieldEnv : FieldEnv :=
  { rag := .ok toolEnv, web := .ok "web answer" }

/-- A session holding one document whose agent emitted the Chinese
not-mentioned marker without using any tool. -/
def chineseEnv : AgentEnv :=
  { hasCollection := true, count := 2
    docs := [{ page_content := "revenue table", source := some "doc.pdf" }]
    result := .ok { output := .rstr "未提及", responseStr := "agent finished" } }

/-- A loop-iteration environment wrapping `chineseEnv`. -/
def chineseFieldEnv : FieldEnv :=
  { rag := .ok chineseEnv, web := .ok "from web" }

/-- A loop-iteration environment where both stages raise. -/
def failFieldEnv : FieldEnv :=
  { rag := .error "rag down", web := .error "no net" }

/-- A session whose query raised inside the try block. -/
def errEnv : AgentEnv :=
  { hasCollection := true, count := 1, docs := [], result := .error "timeout" }

/-- A number-typed field specification. -/
def amountField : ExtractionField :=
  { key := "amount", description := "total amount", data_type := "number" }

/-- A documented session whose agent answered with the sentinel next to a
number, exercising the post-processing-before-sentinel-check order. -/
def missingDigitEnv : AgentEnv :=
  { hasCollection := true, count := 1
    docs := [{ page_content := "amount 42", source := some "a.pdf" }]
    result := .ok { output := .rstr "MISSING 42", responseStr := "agent finished" } }

/-- A loop-iteration environment wrapping `missingDigitEnv`. -/
def missingDigitFieldEnv : FieldEnv :=
  { rag := .ok missingDigitEnv, web := .ok "web answer" }

/-- A session holding one document whose agent answered cleanly from it. -/
def docEnv : AgentEnv :=
  { hasCollection := true, count := 1
    docs := [{ page_content := "Acme Corp is led by Jane Doe", source := some "b.pdf" }]
    result := .ok { output := .rstr "Jane Doe", responseStr := "agent finished" } }

/-- A loop-iteration environment wrapping `docEnv`. -/
def docFieldEnv : FieldEnv := { rag := .ok docEnv, web := .ok "web answer" }

/-- The two field results of the fill round-trip example: a numeric value
for `amount` and a null-valued `note` that must be skipped. -/
def fillResults : List FieldResult :=
  [ { key := "amount", value := .vInt 500000, source := "s", confidence := "High (Doc)" }
  , { key := "note", value := .vNull, source := "None", confidence := "None" } ]

/-- A template document carrying two `amount` placeholders, an unmatched
`other` placeholder, and placeholder-free text, in paragraphs and a table. -/
def exampleDoc : WordDoc :=
  { paragraphs :=
      [ "Total: \x7b\x7bamount\x7d\x7d and \x7b\x7bamount\x7d\x7d."
      , "Keep \x7b\x7bother\x7d\x7d text" ]
    tables := [ [ [ "\x7b\x7bamount\x7d\x7d", "plain" ] ] ] }

/-- The expected output of filling `exampleDoc` with `fillResults`. -/
def exampleDocFilled : WordDoc :=
  { paragraphs :=
      [ "Total: 500000 and 500000."
      , "Keep \x7b\x7bother\x7d\x7d text" ]
    tables := [ [ [ "500000", "plain" ] ] ] }

/-! ## Helper lemmas -/

theorem extract_fields_length (fields : List ExtractionField) (env : Nat → FieldEnv) :
    (extract_fields fields env).length = fields.length := by
  induction fields generalizing env with
  | nil => rfl
  | cons f rest ih => simp [extract_fields, ih]

theorem extract_fields_get (fields : List ExtractionField) (env : Nat → FieldEnv) (i : Nat) :
    (extract_fields fields env)[i]? = (fields[i]?).map (fun f => extract_one f (env i)) := by
  induction fields generalizing env i with
  | nil => simp [extract_fields]
  | cons f rest ih =>
    cases i with
    | zero => simp [extract_fields]
    | succ j => simpa [extract_fields] using ih (fun k => env (k + 1)) j

theorem takeWhile_append_stop {p : Char → Bool} (d : List Char) (x : Char) (e : List Char)
    (hd : ∀ c ∈ d, p c = true) (hx : p x = false) :
    (d ++ x :: e).takeWhile p = d := by
  induction d with
  | nil => simp [List.takeWhile_cons, hx]
  | cons a t ih =>
    have ha : p a = true := hd a (List.mem_cons_self a t)
    simp [List.takeWhile_cons, ha, ih (fun c hc => hd c (List.mem_cons_of_mem a hc))]

theorem dropWhile_append_stop {p : Char → Bool} (d : List Char) (x : Char) (e : List Char)
    (hd : ∀ c ∈ d, p c = true) (hx : p x = false) :
    (d ++ x :: e).dropWhile p = x :: e := by
  induction d with
  | nil => simp [List.dropWhile_cons, hx]
  | cons a t ih =>
    have ha : p a = true := hd a (List.mem_cons_self a t)
    simp [List.dropWhile_cons, ha, ih (fun c hc => hd c (List.mem_cons_of_mem a hc))]

theorem matchBody_spec (s m : List Char) (h : matchBody s = some m) :
    (∃ t, s = m ++ t) ∧ unsignedDecTok m = true := by
  have hdig : ∀ c ∈ s.takeWhile Char.isDigit, Char.isDigit c = true :=
    fun c hc => List.mem_takeWhile_imp hc
  unfold matchBody at h
  split at h
  case isTrue hcond =>
    obtain ⟨hhead, hne⟩ := hcond
    obtain ⟨u, hu⟩ : ∃ u, s.dropWhile Char.isDigit = '.' :: u := by
      cases ht : s.dropWhile Char.isDigit with
      | nil => rw [ht] at hhead; cases hhead
      | cons c u =>
        rw [ht] at hhead
        injection hhead with hc
        exact ⟨u, by rw [hc]⟩
    rw [hu] at h hne
    simp only [List.tail_cons] at h hne
    injection h with hm
    subst hm
    have hedig : ∀ c ∈ u.takeWhile Char.isDigit, Char.isDigit c = true :=
      fun c hc => List.mem_takeWhile_imp hc
    have hs : s.takeWhile Char.isDigit ++ '.' :: u = s := by
      have hsplit := List.takeWhile_append_dropWhile Char.isDigit s
      rw [hu] at hsplit
      exact hsplit
    constructor
    · refine ⟨u.dropWhile Char.isDigit, ?_⟩
      have hu2 : u.takeWhile Char.isDigit ++ u.dropWhile Char.isDigit = u :=
        List.takeWhile_append_dropWhile Char.isDigit u
      calc s = s.takeWhile Char.isDigit ++ '.' :: u := hs.symm
        _ = s.takeWhile Char.isDigit
            ++ '.' :: (u.takeWhile Char.isDigit ++ u.dropWhile Char.isDigit) := by rw [hu2]
        _ = (s.takeWhile Char.isDigit ++ '.' :: u.takeWhile Char.isDigit)
            ++ u.dropWhile Char.isDigit := by simp [List.append_assoc]
    · have h2 : ((s.takeWhile Char.isDigit ++ '.' :: u.takeWhile Char.isDigit).dropWhile
          Char.isDigit) = '.' :: u.takeWhile Char.isDigit :=
        dropWhile_append_stop _ _ _ hdig (by decide)
      unfold unsignedDecTok
      rw [h2]
      simp only [List.isEmpty_cons, List.head?_cons, List.tail_cons]
      rw [if_neg (by simp)]
      rw [if_pos trivial]
      have hall : (u.takeWhile Char.isDigit).all Char.isDigit = true := by
        rw [List.all_eq_true]
        exact fun c hc => hedig c hc
      rw [hall]
      simpa using hne
  case isFalse hcond =>
    split at h
    case isTrue => cases h
    case isFalse hne =>
      injection h with hm
      subst hm
      constructor
      · exact ⟨s.dropWhile Char.isDigit,
          (List.takeWhile_append_dropWhile Char.isDigit s).symm⟩
      · unfold unsignedDecTok
        have h1 : (s.takeWhile Char.isDigit).takeWhile Char.isDigit
            = s.takeWhile Char.isDigit := by
          rw [List.takeWhile_eq_self_iff]
          exact fun c hc => hdig c hc
        have h2 : (s.takeWhile Char.isDigit).dropWhile Char.isDigit = [] := by
          rw [List.dropWhile_eq_nil_iff]
          exact fun c hc => hdig c hc
        rw [h1, h2]
        simp only [List.isEmpty_nil, if_pos rfl]
        simpa using hne

theorem unsignedDecTok_head_not_minus (m : List Char) (h : unsignedDecTok m = true) :
    m.head? ≠ some '-' := by
  intro hm
  obtain ⟨rest, hrest⟩ : ∃ rest, m = '-' :: rest := by
    cases m with
    | nil => cases hm
    | cons c rest => injection hm with hc; exact ⟨rest, by rw [hc]⟩
  subst hrest
  unfold unsignedDecTok at h
  rw [List.takeWhile_cons, List.dropWhile_cons] at h
  simp only [show Char.isDigit '-' = false from rfl] at h
  simp at h

theorem matchAt_spec (s m : List Char) (h : matchAt s = some m) :
    (∃ t, s = m ++ t) ∧ isSignedDecTok m = true := by
  unfold matchAt at h
  split at h
  case isTrue hhead =>
    obtain ⟨rest, hrest⟩ : ∃ rest, s = '-' :: rest := by
      cases s with
      | nil => cases hhead
      | cons c u => injection hhead with hc; exact ⟨u, by rw [hc]⟩
    subst hrest
    simp only [List.tail_cons] at h
    cases hb : matchBody rest with
    | some m0 =>
      rw [hb] at h
      injection h with hm
      subst hm
      obtain ⟨⟨t, ht⟩, htok⟩ := matchBody_spec rest m0 hb
      refine ⟨⟨t, by rw [ht, List.cons_append]⟩, ?_⟩
      unfold isSignedDecTok
      simp only [List.head?_cons, List.tail_cons, if_pos rfl]
      exact htok
    | none =>
      rw [hb] at h
      obtain ⟨⟨t, ht⟩, htok⟩ := matchBody_spec _ m h
      refine ⟨⟨t, ht⟩, ?_⟩
      unfold isSignedDecTok
      rw [if_neg (unsignedDecTok_head_not_minus m htok)]
      exact htok
  case isFalse hhead =>
    obtain ⟨⟨t, ht⟩, htok⟩ := matchBody_spec _ m h
    refine ⟨⟨t, ht⟩, ?_⟩
    unfold isSignedDecTok
    rw [if_neg (unsignedDecTok_head_not_minus m htok)]
    exact htok

theorem unsignedDecTok_chars (m : List Char) (h : unsignedDecTok m = true) :
    ∀ c ∈ m, c.isDigit = true ∨ c = '.' := by
  intro c hc
  have hsplit : m.takeWhile Char.isDigit ++ m.dropWhile Char.isDigit = m :=
    List.takeWhile_append_dropWhile Char.isDigit m
  rw [← hsplit] at hc
  rcases List.mem_append.mp hc with h1 | h2
  · exact Or.inl (List.mem_takeWhile_imp h1)
  · unfold unsignedDecTok at h
    split at h
    case isTrue hemp =>
      rw [List.isEmpty_iff] at hemp
      rw [hemp] at h2
      cases h2
    case isFalse =>
      split at h
      case isTrue hhead =>
        obtain ⟨d2, hd2⟩ : ∃ d2, m.dropWhile Char.isDigit = '.' :: d2 := by
          cases ht : m.dropWhile Char.isDigit with
          | nil => rw [ht] at hhead; cases hhead
          | cons x d2 => rw [ht] at hhead; injection hhead with hx; exact ⟨d2, by rw [hx]⟩
        rw [hd2] at h2 h
        simp only [List.tail_cons] at h
        rcases List.mem_cons.mp h2 with hdot | hmem
        · exact Or.inr hdot
        · have hall := (Bool.and_eq_true _ _).mp h
          exact Or.inl (List.all_eq_true.mp hall.2 c hmem)
      case isFalse => cases h

theorem isSignedDecTok_chars (m : List Char) (h : isSignedDecTok m = true) :
    ∀ c ∈ m, c.isDigit = true ∨ c = '.' ∨ c = '-' := by
  unfold isSignedDecTok at h
  split at h
  case isTrue hhead =>
    obtain ⟨rest, hrest⟩ : ∃ rest, m = '-' :: rest := by
      cases m with
      | nil => cases hhead
      | cons c rest => injection hhead with hc; exact ⟨rest, by rw [hc]⟩
    subst hrest
    intro c hc
    rcases List.mem_cons.mp hc with hminus | hmem
    · exact Or.inr (Or.inr hminus)
    · rcases unsignedDecTok_chars _ (by simpa using h) c hmem with h1 | h2
      · exact Or.inl h1
      · exact Or.inr (Or.inl h2)
  case isFalse =>
    intro c hc
    rcases unsignedDecTok_chars _ h c hc with h1 | h2
    · exact Or.inl h1
    · exact Or.inr (Or.inl h2)

theorem searchNum_spec (l m : List Char) (h : searchNum l = some m) :
    ∃ pre post, l = pre ++ (m ++ post) ∧ isSignedDecTok m = true ∧
      ∀ pre2 post2, l = pre2 ++ post2 → pre2.length < pre.length →
        matchAt post2 = none := by
  induction l with
  | nil => cases h
  | cons c rest ih =>
    unfold searchNum at h
    cases ha : matchAt (c :: rest) with
    | some m0 =>
      rw [ha] at h
      injection h with hm
      subst hm
      obtain ⟨⟨t, ht⟩, htok⟩ := matchAt_spec _ _ ha
      refine ⟨[], t, by simpa using ht, htok, ?_⟩
      intro pre2 post2 _ hlen
      cases hlen
    | none =>
      rw [ha] at h
      obtain ⟨pre, post, heq, htok, hfirst⟩ := ih h
      refine ⟨c :: pre, post, by rw [List.cons_append, ← heq], htok, ?_⟩
      intro pre2 post2 hsplit hlen
      cases pre2 with
      | nil =>
        simp at hsplit
        rw [← hsplit]
        exact ha
      | cons c2 pre3 =>
        rw [List.cons_append] at hsplit
        injection hsplit with hc2 hrest
        simp only [List.length_cons, Nat.succ_lt_succ_iff] at hlen
        exact hfirst pre3 post2 hrest hlen

theorem matchBody_isSome_of_digit_head (c : Char) (rest : List Char)
    (hc : c.isDigit = true) : (matchBody (c :: rest)).isSome = true := by
  unfold matchBody
  split
  · rfl
  · rw [if_neg]
    · rfl
    · rw [List.takeWhile_cons, if_pos hc]
      simp

theorem matchAt_isSome_of_digit_head (c : Char) (rest : List Char)
    (hc : c.isDigit = true) : (matchAt (c :: rest)).isSome = true := by
  unfold matchAt
  rw [if_neg]
  · exact matchBody_isSome_of_digit_head c rest hc
  · simp only [List.head?_cons]
    intro hcon
    injection hcon with hcon2
    rw [hcon2] at hc
    exact absurd hc (by decide)

theorem searchNum_isSome_of_digit (l : List Char)
    (h : ∃ c ∈ l, c.isDigit = true) : (searchNum l).isSome = true := by
  induction l with
  | nil => obtain ⟨c, hc, -⟩ := h; cases hc
  | cons c rest ih =>
    unfold searchNum
    cases ha : matchAt (c :: rest) with
    | some m => rfl
    | none =>
      obtain ⟨x, hx, hxd⟩ := h
      rcases List.mem_cons.mp hx with hxc | hxm
      · subst hxc
        have hsome := matchAt_isSome_of_digit_head x rest hxd
        rw [ha] at hsome
        cases hsome
      · exact ih ⟨x, hxm, hxd⟩

theorem containsSubL_false_of_head_not_mem (p0 : Char) (pt l : List Char)
    (h : p0 ∉ l) : containsSubL (p0 :: pt) l = false := by
  induction l with
  | nil => rfl
  | cons c rest ih =>
    unfold containsSubL
    have hne : p0 ≠ c := fun hcon => h (by rw [hcon]; exact List.mem_cons_self c rest)
    have h2 : p0 ∉ rest := fun hcon => h (List.mem_cons_of_mem c hcon)
    rw [ih h2]
    simp [List.isPrefixOf, hne]

theorem postProcessNumber_of_digit (ans : String)
    (h : ∃ c ∈ ans.toList, c.isDigit = true) :
    ∃ m, searchNum (stripCommas ans).toList = some m ∧
      postProcessNumber ans = String.mk m ∧
      containsSub "MISSING" (String.mk m) = false ∧
      containsSub "未提及" (String.mk m) = false := by
  obtain ⟨c, hc, hcd⟩ := h
  have hcs : c ∈ (stripCommas ans).toList := by
    show c ∈ ans.toList.filter _
    refine List.mem_filter.mpr ⟨hc, ?_⟩
    have hcomma : c ≠ ',' := by
      intro hcon
      rw [hcon] at hcd
      exact absurd hcd (by decide)
    exact decide_eq_true hcomma
  have hsome := searchNum_isSome_of_digit _ ⟨c, hcs, hcd⟩
  obtain ⟨m, hm⟩ := Option.isSome_iff_exists.mp hsome
  obtain ⟨pre, post, -, htok, -⟩ := searchNum_spec _ _ hm
  have hchars := isSignedDecTok_chars m htok
  have hMnot : 'M' ∉ m := by
    intro hmem
    rcases hchars 'M' hmem with h1 | h2 | h3
    · exact absurd h1 (by decide)
    · exact absurd h2 (by decide)
    · exact absurd h3 (by decide)
  have hCnot : '未' ∉ m := by
    intro hmem
    rcases hchars '未' hmem with h1 | h2 | h3
    · exact absurd h1 (by decide)
    · exact absurd h2 (by decide)
    · exact absurd h3 (by decide)
  refine ⟨m, hm, ?_, ?_, ?_⟩
  · unfold postProcessNumber
    rw [hm]
  · show containsSubL ("MISSING".toList) m = false
    have hpat : "MISSING".toList = 'M' :: ['I', 'S', 'S', 'I', 'N', 'G'] := by decide
    rw [hpat]
    exact containsSubL_false_of_head_not_mem _ _ _ hMnot
  · show containsSubL ("未提及".toList) m = false
    have hpat : "未提及".toList = '未' :: ['提', '及'] := by decide
    rw [hpat]
    exact containsSubL_false_of_head_not_mem _ _ _ hCnot

theorem docx_excludes_pdf (l : List Char) (hd : endsWithL ".docx".toList l = true) :
    endsWithL ".pdf".toList l = false := by
  unfold endsWithL List.isSuffixOf at hd ⊢
  have e1 : (".docx".toList).reverse = ['x', 'c', 'o', 'd', '.'] := by decide
  have e2 : (".pdf".toList).reverse = ['f', 'd', 'p', '.'] := by decide
  rw [e1] at hd
  rw [e2]
  cases hr : l.reverse with
  | nil => rw [hr] at hd; exact absurd hd (by decide)
  | cons c rest =>
    rw [hr] at hd
    simp only [List.isPrefixOf, Bool.and_eq_true, beq_iff_eq] at hd
    obtain ⟨hc, -⟩ := hd
    simp only [List.isPrefixOf, Bool.and_eq_true, beq_iff_eq]
    simp [← hc]

theorem splitOnFuel_ne_nil (pat : List Char) (fuel : Nat) (s : List Char) :
    splitOnFuel pat fuel s ≠ [] := by
  cases fuel with
  | zero => cases s <;> simp [splitOnFuel]
  | succ n =>
    cases s with
    | nil => simp [splitOnFuel]
    | cons c rest =>
      unfold splitOnFuel
      by_cases hcond : (pat.isPrefixOf (c :: rest) && !pat.isEmpty) = true
      · rw [if_pos hcond]; simp
      · rw [if_neg hcond]
        cases splitOnFuel pat n rest <;> simp

theorem replaceAllFuel_eq_join (pat val : List Char) :
    ∀ (fuel : Nat) (s : List Char), s.length ≤ fuel →
      replaceAllFuel pat val fuel s = joinWith val (splitOnFuel pat fuel s) := by
  intro fuel
  induction fuel with
  | zero =>
    intro s hs
    have hnil : s = [] := List.eq_nil_of_length_eq_zero (Nat.le_zero.mp hs)
    subst hnil
    rfl
  | succ n ih =>
    intro s hs
    cases s with
    | nil => rfl
    | cons c rest =>
      have hrest : rest.length ≤ n := by
        simpa [Nat.succ_le_succ_iff] using hs
      unfold replaceAllFuel splitOnFuel
      by_cases hcond : (pat.isPrefixOf (c :: rest) && !pat.isEmpty) = true
      · rw [if_pos hcond, if_pos hcond]
        have hdrop : (rest.drop (pat.length - 1)).length ≤ n := by
          rw [List.length_drop]
          omega
        rw [ih _ hdrop]
        cases hsp : splitOnFuel pat n (rest.drop (pat.length - 1)) with
        | nil => exact absurd hsp (splitOnFuel_ne_nil pat n _)
        | cons hh tt => simp [joinWith]
      · rw [if_neg hcond, if_neg hcond]
        rw [ih rest hrest]
        cases hsp : splitOnFuel pat n rest with
        | nil => exact absurd hsp (splitOnFuel_ne_nil pat n rest)
        | cons hh tt =>
          cases tt with
          | nil => rfl
          | cons y t2 => simp [joinWith]

theorem splitOnFuel_no_occur (pat : List Char) :
    ∀ (fuel : Nat) (s : List Char), s.length ≤ fuel →
      containsSubL pat s = false → splitOnFuel pat fuel s = [s] := by
  intro fuel
  induction fuel with
  | zero =>
    intro s hs hc
    have hnil : s = [] := List.eq_nil_of_length_eq_zero (Nat.le_zero.mp hs)
    subst hnil
    rfl
  | succ n ih =>
    intro s hs hc
    cases s with
    | nil => rfl
    | cons c rest =>
      unfold containsSubL at hc
      rw [Bool.or_eq_false_iff] at hc
      obtain ⟨h1, h2⟩ := hc
      have hrest : rest.length ≤ n := by
        simpa [Nat.succ_le_succ_iff] using hs
      unfold splitOnFuel
      rw [if_neg (by simp [h1])]
      rw [ih rest hrest h2]

theorem stringMk_toList (s : String) : String.mk s.toList = s := rfl

theorem fillText_single (k v t : String) :
    fillText [(k, v)] t = splitJoin (placeholder k) v t := by
  unfold fillText
  simp only [List.foldl_cons, List.foldl_nil]
  by_cases hc : containsSub (placeholder k) t = true
  · rw [if_pos hc]
    unfold replaceAllS splitJoin replaceAllL splitOnL
    rw [replaceAllFuel_eq_join _ _ _ _ (Nat.le_refl _)]
  · rw [if_neg hc]
    unfold splitJoin splitOnL
    rw [splitOnFuel_no_occur _ _ _ (Nat.le_refl _) (by simpa using hc)]
    rfl

/-! ## Claim theorems -/

/-- C1, counterexample: the claim that confidence is High only when no
search-tool usage occurred fails on the code. For an empty session whose
agent answered via the search tool, the extraction loop still labels the
field `"High (Doc)"`, even though the tool was used and the pre-normalization
document-source list is empty. -/
theorem high_confidence_despite_search_tool_usage :
    (extract_one ceoField toolFieldEnv).confidence = "High (Doc)" ∧
    usedSearchTool toolResp = true ∧
    docSources toolEnv = [] :=
  ⟨rfl, by decide, by decide⟩

/-- C1, amended: a Field Result's confidence is `"High (Doc)"` exactly when
the non-raising retrieval stage's post-processed answer triggers no fallback:
it contains neither marker and the source list returned by `query_document`
is non-empty. That list may itself contain `"Internet Search"` appended on
detected search-tool usage, so tool usage does not cap confidence at Medium;
the Medium cap applies only to the loop's own web-search fallback stage. -/
theorem high_confidence_iff_marker_free_and_nonempty_sources :
    ∀ (f : ExtractionField) (fenv : FieldEnv),
      (extract_one f fenv).confidence = "High (Doc)" ↔
      ∃ env : AgentEnv, fenv.rag = .ok env ∧
        needsWebSearch (procAnswer f (query_document env).answer)
          (query_document env).source_documents = false := by
  intro f fenv
  unfold extract_one
  cases hr : fenv.rag with
  | error e =>
    constructor
    · intro h
      exfalso
      unfold webFallback at h
      cases hw : fenv.web with
      | ok w => rw [hw] at h; simp at h
      | error e2 => rw [hw] at h; simp at h
    · rintro ⟨env, heq, -⟩
      cases heq
  | ok env =>
    by_cases hn : needsWebSearch (procAnswer f (query_document env).answer)
        (query_document env).source_documents = true
    · simp only [hn, if_true]
      constructor
      · intro h
        exfalso
        unfold webFallback at h
        cases hw : fenv.web with
        | ok w => rw [hw] at h; simp at h
        | error e2 => rw [hw] at h; simp at h
      · rintro ⟨env2, heq, hn2⟩
        injection heq with heq2
        rw [← heq2] at hn2
        rw [hn] at hn2
        cases hn2
    · rw [Bool.not_eq_true] at hn
      simp only [hn, Bool.false_eq_true, if_false]
      constructor
      · intro _
        exact ⟨env, rfl, hn⟩
      · intro _
        trivial

/-- C1, witness: the amended equivalence applied to a clean document-grounded
answer yields High confidence. -/
theorem high_confidence_iff_marker_free_and_nonempty_sources_witness :
    (extract_one ceoField docFieldEnv).confidence = "High (Doc)" :=
  (high_confidence_iff_marker_free_and_nonempty_sources ceoField docFieldEnv).mpr
    ⟨docEnv, rfl, by decide⟩

/-- C2, counterexample: the claim that `query_document` always returns empty
`source_documents` for a session with zero indexed documents fails on the
code: when the agent used the search tool, line 198 appends
`"Internet Search"`, so the list is non-empty. -/
theorem empty_session_can_return_internet_search_source :
    has_documents toolEnv = false ∧
    (query_document toolEnv).source_documents = ["Internet Search"] := by
  constructor
  · decide
  · rfl

/-- C2, amended: for a session with zero indexed documents the presence
check reports no documents, and `query_document` returns `source_documents`
either empty or exactly `["Internet Search"]` — never a document source. -/
theorem empty_session_sources_empty_or_internet_search :
    ∀ env : AgentEnv, has_documents env = false →
      (query_document env).source_documents = [] ∨
      (query_document env).source_documents = ["Internet Search"] := by
  intro env h
  unfold query_document
  cases hr : env.result with
  | error e => left; rfl
  | ok resp =>
    have hds : docSources env = [] := by unfold docSources; rw [h]; rfl
    by_cases hu : usedSearchTool resp = true
    · right; simp [hds, hu]
    · left; simp [hds, Bool.not_eq_true] at *; simp [hu, hds]

/-- C2, witness: the amended statement applied to the concrete empty
session. -/
theorem empty_session_sources_empty_or_internet_search_witness :
    (query_document toolEnv).source_documents = [] ∨
    (query_document toolEnv).source_documents = ["Internet Search"] :=
  empty_session_sources_empty_or_internet_search toolEnv (by decide)

/-- C3, counterexample: the claim that the fallback is taken if and only if
the answer contains the designated sentinel (`"MISSING"`) or the source list
is empty fails on the code: the answer `"未提及"` with a non-empty source
list satisfies neither spec condition, yet line 73 takes the fallback. -/
theorem fallback_taken_on_chinese_marker :
    needsWebSearch "未提及" ["doc.pdf"] = true ∧
    specFallbackCondition "未提及" ["doc.pdf"] = false ∧
    (extract_one ceoField chineseFieldEnv).confidence = "Medium (Web)" :=
  ⟨by decide, by decide, rfl⟩

/-- C3, amended: for a non-raising retrieval stage, the web-search fallback
is taken if and only if the post-processed answer contains `"MISSING"` or
contains `"未提及"` or the candidate-source list is empty; otherwise the
field terminates with the retrieved answer and its stringified sources at
High confidence. -/
theorem fallback_iff_marker_or_empty_sources :
    ∀ (f : ExtractionField) (fenv : FieldEnv) (env : AgentEnv), fenv.rag = .ok env →
      (needsWebSearch (procAnswer f (query_document env).answer)
          (query_document env).source_documents =
        (containsSub "MISSING" (procAnswer f (query_document env).answer)
          || containsSub "未提及" (procAnswer f (query_document env).answer)
          || (query_document env).source_documents.isEmpty)) ∧
      (needsWebSearch (procAnswer f (query_document env).answer)
          (query_document env).source_documents = true →
        extract_one f fenv = webFallback f fenv.web) ∧
      (needsWebSearch (procAnswer f (query_document env).answer)
          (query_document env).source_documents = false →
        extract_one f fenv =
          { key := f.key, value := .vStr (procAnswer f (query_document env).answer)
            source := pyReprList (query_document env).source_documents
            confidence := "High (Doc)" }) := by
  intro f fenv env h
  refine ⟨rfl, ?_, ?_⟩
  · intro hn
    unfold extract_one
    rw [h]
    dsimp only
    rw [hn, if_pos rfl]
  · intro hn
    unfold extract_one
    rw [h]
    dsimp only
    rw [hn]
    rfl

/-- C3, witness: the amended statement applied to the Chinese-marker
scenario takes the fallback. -/
theorem fallback_iff_marker_or_empty_sources_witness :
    extract_one ceoField chineseFieldEnv = webFallback ceoField chineseFieldEnv.web :=
  (fallback_iff_marker_or_empty_sources ceoField chineseFieldEnv chineseEnv rfl).2.1
    (by decide)

/-- C4, counterexample: the claim that total failure yields `value = null`
fails on the code: line 112 stores the placeholder string `"N/A"`, which is
not the null value. -/
theorem total_failure_value_is_na_string_not_null :
    extract_one ceoField failFieldEnv =
      { key := "ceo_name", value := .vStr "N/A", source := "None", confidence := "None" } ∧
    PyValue.vStr "N/A" ≠ PyValue.vNull :=
  ⟨rfl, by decide⟩

/-- C4, amended: when the web-search stage raises and the retrieval stage
either raised or triggered the fallback, the Field Result is
`value = "N/A"` (a placeholder string, not null), `source = "None"`,
`confidence = "None"`. -/
theorem total_failure_result_na_none_none :
    ∀ (f : ExtractionField) (fenv : FieldEnv) (e : String), fenv.web = .error e →
      (∀ env : AgentEnv, fenv.rag = Except.ok env →
        needsWebSearch (procAnswer f (query_document env).answer)
          (query_document env).source_documents = true) →
      extract_one f fenv =
        { key := f.key, value := .vStr "N/A", source := "None", confidence := "None" } := by
  intro f fenv e hw hr
  unfold extract_one
  cases h : fenv.rag with
  | error e2 => unfold webFallback; rw [hw]
  | ok env =>
    dsimp only
    rw [hr env h, if_pos rfl]
    unfold webFallback
    rw [hw]

/-- C4, witness: the amended statement applied to the both-stages-fail
environment. -/
theorem total_failure_result_na_none_none_witness :
    extract_one ceoField failFieldEnv =
      { key := "ceo_name", value := .vStr "N/A", source := "None", confidence := "None" } :=
  total_failure_result_na_none_none ceoField failFieldEnv "no net" rfl
    (fun env h => by cases h)

/-- C5: `extract_fields` returns exactly one Field Result per input field
specification, in input order, and the i-th result depends only on the i-th
field and the i-th iteration's external observations — so one field's
failure never aborts or disturbs the others. -/
theorem extract_fields_one_result_per_field_in_order :
    ∀ (fields : List ExtractionField) (env : Nat → FieldEnv),
      (extract_fields fields env).length = fields.length ∧
      ∀ i : Nat, (extract_fields fields env)[i]? =
        (fields[i]?).map (fun f => extract_one f (env i)) :=
  fun fields env =>
    ⟨extract_fields_length fields env, fun i => extract_fields_get fields env i⟩

/-- C6: if the retrieval or generation pipeline inside `query_document`
raises, the call does not propagate the exception: it returns a well-formed
answer describing the error with an empty source list. -/
theorem query_document_never_propagates_errors :
    ∀ (env : AgentEnv) (e : String), env.result = .error e →
      query_document env =
        { answer := "I encountered an error while thinking: " ++ e
          source_documents := [] } := by
  intro env e h
  unfold query_document
  rw [h]

/-- C6, witness: the degradation applied to a concrete raised exception. -/
theorem query_document_never_propagates_errors_witness :
    query_document errEnv =
      { answer := "I encountered an error while thinking: timeout"
        source_documents := [] } :=
  query_document_never_propagates_errors errEnv "timeout" rfl

/-- C7: for a number-typed field the post-processing strips commas and
extracts the first signed-decimal numeric substring: the raw answer
`"$1,234.50 USD"` normalizes to `"1234.50"`, and in general every match
returned by the embedded search is a signed-decimal token occurring in the
input at the leftmost matchable position. -/
theorem number_postprocessing_first_signed_decimal :
    postProcessNumber "$1,234.50 USD" = "1234.50" ∧
    ∀ l m : List Char, searchNum l = some m →
      ∃ pre post, l = pre ++ (m ++ post) ∧ isSignedDecTok m = true ∧
        ∀ pre2 post2, l = pre2 ++ post2 → pre2.length < pre.length →
          matchAt post2 = none :=
  ⟨by decide, fun l m h => searchNum_spec l m h⟩

/-- C7, witness: the general conjunct applied to a concrete search. -/
theorem number_postprocessing_first_signed_decimal_witness :
    ∃ pre post, "a12".toList = pre ++ ("12".toList ++ post) ∧
      isSignedDecTok "12".toList = true ∧
      ∀ pre2 post2, "a12".toList = pre2 ++ post2 → pre2.length < pre.length →
        matchAt post2 = none :=
  number_postprocessing_first_signed_decimal.2 "a12".toList "12".toList (by decide)

/-- C8: `_fill_word` with the value map of `fillResults` (which drops the
null-valued result) rewrites every paragraph and table cell by replacing
every `amount` placeholder occurrence with `"500000"` and altering nothing
else (the split-and-rejoin characterization); on the concrete template all
`amount` placeholders are replaced, the unmatched `other` placeholder is
left verbatim, and all other text is unchanged. -/
theorem fill_word_replaces_every_placeholder_skips_null :
    (∀ doc : WordDoc,
      fill_word doc (buildDataMap fillResults) =
        { paragraphs := doc.paragraphs.map (splitJoin (placeholder "amount") "500000")
          tables := doc.tables.map (fun rows => rows.map (fun cells =>
            cells.map (splitJoin (placeholder "amount") "500000"))) }) ∧
    fill_word exampleDoc (buildDataMap fillResults) = exampleDocFilled := by
  have hdm : buildDataMap fillResults = [("amount", "500000")] := by decide
  have hfun : fillText [("amount", "500000")]
      = splitJoin (placeholder "amount") "500000" :=
    funext (fun t => fillText_single "amount" "500000" t)
  constructor
  · intro doc
    unfold fill_word
    rw [hdm, hfun]
  · unfold fill_word
    rw [hdm, hfun]
    decide

/-- C9: `fill_document` raises the unsupported-format error exactly for
lower-cased filenames ending in neither `.pdf` nor `.docx`, and dispatches
the two supported extensions to the PDF and Word fillers respectively. -/
theorem fill_document_unsupported_extension_dispatch :
    ∀ fn : String,
      (fill_document fn = .unsupportedError ↔
        endsWithL ".pdf".toList (toLowerStr fn).toList = false ∧
        endsWithL ".docx".toList (toLowerStr fn).toList = false) ∧
      (endsWithL ".pdf".toList (toLowerStr fn).toList = true →
        fill_document fn = .filledPdf) ∧
      (endsWithL ".docx".toList (toLowerStr fn).toList = true →
        fill_document fn = .filledWord) := by
  intro fn
  unfold fill_document
  by_cases hp : endsWithL ".pdf".toList (toLowerStr fn).toList = true
  · rw [if_pos hp]
    refine ⟨?_, fun _ => rfl, fun hd => ?_⟩
    · constructor
      · intro h; cases h
      · rintro ⟨h1, -⟩; rw [hp] at h1; cases h1
    · have hx := docx_excludes_pdf _ hd
      rw [hp] at hx; cases hx
  · have hpf : endsWithL ".pdf".toList (toLowerStr fn).toList = false := by
      rwa [Bool.not_eq_true] at hp
    rw [if_neg hp]
    by_cases hd : endsWithL ".docx".toList (toLowerStr fn).toList = true
    · rw [if_pos hd]
      refine ⟨?_, fun hp2 => ?_, fun _ => rfl⟩
      · constructor
        · intro h; cases h
        · rintro ⟨-, h2⟩; rw [hd] at h2; cases h2
      · rw [hp2] at hpf; cases hpf
    · have hdf : endsWithL ".docx".toList (toLowerStr fn).toList = false := by
        rwa [Bool.not_eq_true] at hd
      rw [if_neg hd]
      exact ⟨⟨fun _ => ⟨hpf, hdf⟩, fun _ => rfl⟩,
             fun hp2 => absurd hp2 hp, fun hd2 => absurd hd2 hd⟩

/-- C9, witness: the spec scenario — a `.txt` template is rejected. -/
theorem fill_document_unsupported_extension_dispatch_witness :
    fill_document "form.txt" = .unsupportedError :=
  (fill_document_unsupported_extension_dispatch "form.txt").1.mpr (by decide)

/-- C10: the numeric post-processing runs before the sentinel check, so a
number-typed field whose retrieval answer contains `"MISSING"` together with
at least one digit, with a non-empty source list, is treated as answered:
the loop keeps the extracted numeric substring at High confidence instead of
falling back to web search. -/
theorem number_postprocessing_precedes_sentinel_check :
    ∀ (f : ExtractionField) (fenv : FieldEnv) (env : AgentEnv),
      f.data_type = "number" → fenv.rag = Except.ok env →
      containsSub "MISSING" (query_document env).answer = true →
      (∃ c ∈ (query_document env).answer.toList, c.isDigit = true) →
      (query_document env).source_documents ≠ [] →
      (extract_one f fenv).confidence = "High (Doc)" ∧
      (extract_one f fenv).value =
        PyValue.vStr (postProcessNumber (query_document env).answer) := by
  intro f fenv env hnum hr hmiss hdig hsrc
  obtain ⟨m, hm, hpp, hM, hC⟩ := postProcessNumber_of_digit _ hdig
  have hansp : procAnswer f (query_document env).answer
      = postProcessNumber (query_document env).answer := by
    unfold procAnswer
    rw [if_pos hnum]
  have hempty : (query_document env).source_documents.isEmpty = false := by
    cases hq : (query_document env).source_documents with
    | nil => exact absurd hq hsrc
    | cons a b => rfl
  have hneeds : needsWebSearch (procAnswer f (query_document env).answer)
      (query_document env).source_documents = false := by
    unfold needsWebSearch
    rw [hansp, hpp, hM, hC, hempty]
    rfl
  unfold extract_one
  rw [hr]
  dsimp only
  rw [hneeds]
  rw [if_neg (by simp)]
  exact ⟨rfl, by rw [hansp]⟩

/-- C10, witness: the concrete answer `"MISSING 42"` with a document source
is kept as the numeric value `"42"` at High confidence. -/
theorem number_postprocessing_precedes_sentinel_check_witness :
    (extract_one amountField missingDigitFieldEnv).confidence = "High (Doc)" ∧
    (extract_one amountField missingDigitFieldEnv).value =
      PyValue.vStr (postProcessNumber (query_document missingDigitEnv).answer) :=
  number_postprocessing_precedes_sentinel_check amountField missingDigitFieldEnv
    missingDigitEnv rfl rfl (by decide) (by decide) (by decide)

end AutoFill
